import Mathlib

/-!
# Verification of the `control` PID controller crate

The crate contains two near-identical modules (`lib.rs` and `pid.rs`), each
defining a discrete-time PID controller generic over a `FloatCore` scalar.
We embed the scalar type as an extended-rational type `F` with `-∞`, `+∞` and
`NaN`, mirroring the IEEE-754 special-value behaviour the Rust code relies on
(`T::infinity()`, `T::neg_infinity()`, NaN-propagating arithmetic and the
all-false NaN comparisons used by `num_traits::clamp`), with exact rational
arithmetic in place of rounding.  Both modules are embedded separately:
`Lib.PID`/`Lib.PID.update` from `lib.rs` and `Pid.PID`/`Pid.PID.step` from
`pid.rs`, field names kept from the source.
-/

/-- Extended rational scalar: the value space of the embedded `FloatCore`
numeric type — finite rationals, the two infinities, and NaN. -/
inductive F where
  | negInf : F
  | num : ℚ → F
  | posInf : F
  | nan : F
deriving DecidableEq

namespace F

/-- IEEE `<=` partial order as used by `PartialOrd` on floats: any comparison
involving NaN is false. -/
def le : F → F → Bool
  | nan, _ => false
  | _, nan => false
  | negInf, _ => true
  | _, negInf => false
  | _, posInf => true
  | posInf, _ => false
  | num a, num b => a ≤ b

/-- IEEE `<` partial order: any comparison involving NaN is false. -/
def lt : F → F → Bool
  | nan, _ => false
  | _, nan => false
  | negInf, negInf => false
  | negInf, _ => true
  | _, negInf => false
  | posInf, _ => false
  | _, posInf => true
  | num a, num b => a < b

/-- IEEE addition on the extended values: `∞ + (-∞) = NaN`, NaN propagates. -/
def add : F → F → F
  | nan, _ => nan
  | _, nan => nan
  | num a, num b => num (a + b)
  | negInf, posInf => nan
  | posInf, negInf => nan
  | negInf, _ => negInf
  | _, negInf => negInf
  | posInf, _ => posInf
  | _, posInf => posInf

/-- IEEE negation. -/
def neg : F → F
  | nan => nan
  | negInf => posInf
  | posInf => negInf
  | num a => num (-a)

/-- IEEE subtraction, `x - y = x + (-y)` (exact, no signed zero in ℚ). -/
def sub (x y : F) : F := add x (neg y)

/-- IEEE multiplication: `0 · ±∞ = NaN`, sign rules for infinities, NaN
propagates. -/
def mul : F → F → F
  | nan, _ => nan
  | _, nan => nan
  | num a, num b => num (a * b)
  | posInf, posInf => posInf
  | posInf, negInf => negInf
  | negInf, posInf => negInf
  | negInf, negInf => posInf
  | posInf, num a => if 0 < a then posInf else if a < 0 then negInf else nan
  | num a, posInf => if 0 < a then posInf else if a < 0 then negInf else nan
  | negInf, num a => if 0 < a then negInf else if a < 0 then posInf else nan
  | num a, negInf => if 0 < a then negInf else if a < 0 then posInf else nan

/-- IEEE division restricted to the cases the program can reach: finite/finite
(with the ±∞ result on division by the unsigned zero), ∞/finite, finite/∞,
∞/∞ = NaN, and NaN propagation. -/
def div : F → F → F
  | nan, _ => nan
  | _, nan => nan
  | num a, num b =>
      if b = 0 then (if 0 < a then posInf else if a < 0 then negInf else nan)
      else num (a / b)
  | posInf, num b => if 0 ≤ b then posInf else negInf
  | negInf, num b => if 0 ≤ b then negInf else posInf
  | num _, posInf => num 0
  | num _, negInf => num 0
  | posInf, posInf => nan
  | posInf, negInf => nan
  | negInf, posInf => nan
  | negInf, negInf => nan

/-- `num_traits::clamp(input, min, max)`:
`if input < min { min } else if input > max { max } else { input }`. -/
def clamp (x mn mx : F) : F :=
  if lt x mn then mn else if lt mx x then mx else x

end F

namespace Lib

/-- The controller struct of `lib.rs` (field names from the source). -/
structure PID where
  setpoint : F
  error : F
  integral : F
  derivative : F
  measurement : F
  kp : F
  ki : F
  kd : F
  tc : F
  imin : F
  imax : F
  omin : F
  omax : F
deriving DecidableEq

/-- `lib.rs` `PID::new`: `two = 2.0`, `one_half = 0.5`;
`ki = ki * sampling_time * one_half`, `kd = kd * -two`,
`tc = (two * tau - sampling_time) / (two * tau + sampling_time)`;
all recurrence state zero, bounds infinite. -/
def new (kp ki kd tau sampling_time setpoint : F) : PID :=
  let two := F.num 2
  let one_half := F.num (1/2)
  { setpoint := setpoint
    error := F.num 0
    integral := F.num 0
    derivative := F.num 0
    measurement := F.num 0
    kp := kp
    ki := F.mul (F.mul ki sampling_time) one_half
    kd := F.mul kd (F.neg two)
    tc := F.div (F.sub (F.mul two tau) sampling_time)
                (F.add (F.mul two tau) sampling_time)
    imin := F.negInf
    imax := F.posInf
    omin := F.negInf
    omax := F.posInf }

/-- `lib.rs` `PID::bound_integral`: `assert!(min <= max)` (modelled as `none`
on assertion failure, i.e. a panic), then overwrite `imin`/`imax`. -/
def bound_integral (s : PID) (mn mx : F) : Option PID :=
  if F.le mn mx then some { s with imin := mn, imax := mx } else none

/-- `lib.rs` `PID::bound_output`: `assert!(min <= max)` (modelled as `none`
on assertion failure, i.e. a panic), then overwrite `omin`/`omax`. -/
def bound_output (s : PID) (mn mx : F) : Option PID :=
  if F.le mn mx then some { s with omin := mn, omax := mx } else none

/-- `lib.rs` `PID::update`: returns the post-state and the clamped output.
Note the source mutates only `integral` and `derivative`; it never writes
`self.error` or `self.measurement`. -/
def update (s : PID) (measurement : F) : PID × F :=
  let error := F.sub s.setpoint measurement
  let proportional := F.mul s.kp error
  let integral := F.add (F.mul s.ki (F.add error s.error)) s.integral
  let integral' := F.clamp integral s.imin s.imax
  let derivative' := F.add (F.mul s.kd (F.sub measurement s.measurement))
                           (F.mul s.tc s.derivative)
  let output := F.add (F.add proportional integral') derivative'
  ({ s with integral := integral', derivative := derivative' },
   F.clamp output s.omin s.omax)

end Lib

namespace Pid

/-- The controller struct of `pid.rs` (field names from the source). -/
structure PID where
  setpoint : F
  error : F
  integral : F
  derivative : F
  measurement : F
  p : F
  i : F
  d : F
  t : F
  imin : F
  imax : F
  omin : F
  omax : F
deriving DecidableEq

/-- `pid.rs` `PID::new`: `two = 2.0`, `half = 0.5`;
`i = half * ki * sampling_time`, `d = -two * kd`,
`t = (two * tau - sampling_time) / (two * tau + sampling_time)`;
all recurrence state zero, bounds infinite. -/
def new (kp ki kd tau sampling_time setpoint : F) : PID :=
  let two := F.num 2
  let half := F.num (1/2)
  { setpoint := setpoint
    error := F.num 0
    integral := F.num 0
    derivative := F.num 0
    measurement := F.num 0
    p := kp
    i := F.mul (F.mul half ki) sampling_time
    d := F.mul (F.neg two) kd
    t := F.div (F.sub (F.mul two tau) sampling_time)
               (F.add (F.mul two tau) sampling_time)
    imin := F.negInf
    imax := F.posInf
    omin := F.negInf
    omax := F.posInf }

/-- `pid.rs` `PID::bound_integral`: `assert!(min <= max)` (modelled as `none`
on assertion failure, i.e. a panic), then overwrite `imin`/`imax`. -/
def bound_integral (s : PID) (mn mx : F) : Option PID :=
  if F.le mn mx then some { s with imin := mn, imax := mx } else none

/-- `pid.rs` `PID::bound_output`: `assert!(min <= max)` (modelled as `none`
on assertion failure, i.e. a panic), then overwrite `omin`/`omax`. -/
def bound_output (s : PID) (mn mx : F) : Option PID :=
  if F.le mn mx then some { s with omin := mn, omax := mx } else none

/-- `pid.rs` `PID::step`: returns the post-state and the clamped output.
Note the source mutates only `integral` and `derivative`; it never writes
`self.error` or `self.measurement`. -/
def step (s : PID) (measurement : F) : PID × F :=
  let error := F.sub s.setpoint measurement
  let proportional := F.mul s.p error
  let integral := F.add (F.mul s.i (F.add error s.error)) s.integral
  let integral' := F.clamp integral s.imin s.imax
  let derivative' := F.add (F.mul s.d (F.sub measurement s.measurement))
                           (F.mul s.t s.derivative)
  let output := F.add (F.add proportional integral') derivative'
  ({ s with integral := integral', derivative := derivative' },
   F.clamp output s.omin s.omax)

end Pid

/-- External events a caller can apply to a controller: mutate the public
`setpoint` field, call a bound setter, or feed one measurement to the step
operation. -/
inductive Ev where
  | setSp (v : F)
  | boundI (mn mx : F)
  | boundO (mn mx : F)
  | meas (m : F)
deriving DecidableEq

namespace Pid

/-- Run a `pid.rs` controller through a sequence of events, collecting the
outputs of the `step` calls; `none` if a bound setter panicked. -/
def run (s : PID) : List Ev → Option (PID × List F)
  | [] => some (s, [])
  | Ev.setSp v :: evs => run { s with setpoint := v } evs
  | Ev.boundI mn mx :: evs =>
      match bound_integral s mn mx with
      | none => none
      | some s' => run s' evs
  | Ev.boundO mn mx :: evs =>
      match bound_output s mn mx with
      | none => none
      | some s' => run s' evs
  | Ev.meas m :: evs =>
      let r := step s m
      match run r.1 evs with
      | none => none
      | some (sf, os) => some (sf, r.2 :: os)

end Pid

/-- Two `pid.rs` controllers agree on every field except possibly the output
bounds `omin`/`omax`. -/
def Pid.sameExceptOutputBounds (s1 s2 : Pid.PID) : Prop :=
  s1.setpoint = s2.setpoint ∧ s1.error = s2.error ∧ s1.integral = s2.integral ∧
  s1.derivative = s2.derivative ∧ s1.measurement = s2.measurement ∧
  s1.p = s2.p ∧ s1.i = s2.i ∧ s1.d = s2.d ∧ s1.t = s2.t ∧
  s1.imin = s2.imin ∧ s1.imax = s2.imax

/-- Events that only mutate `setpoint` or call the step operation (no bound
setters). -/
def Ev.isStateEvent : Ev → Bool
  | Ev.setSp _ => true
  | Ev.meas _ => true
  | Ev.boundI _ _ => false
  | Ev.boundO _ _ => false

/-! ## Order and clamp lemmas for the scalar type -/

theorem F.ne_nan_of_le {a b : F} (h : F.le a b = true) : a ≠ F.nan ∧ b ≠ F.nan := by
  cases a <;> cases b <;> simp [F.le] at h ⊢

theorem F.le_self {a : F} (h : a ≠ F.nan) : F.le a a = true := by
  cases a <;> simp [F.le] at h ⊢

theorem F.le_of_not_lt {a b : F} (ha : a ≠ F.nan) (hb : b ≠ F.nan)
    (h : F.lt a b = false) : F.le b a = true := by
  cases a <;> cases b <;> simp [F.lt, F.le] at ha hb h ⊢ <;> linarith

theorem F.not_le_of_lt {a b : F} (h : F.lt a b = true) : F.le b a = false := by
  cases a <;> cases b <;> simp [F.lt, F.le] at h ⊢ <;> linarith

/-- The result of `clamp` is the input, the lower bound, or the upper bound. -/
theorem F.clamp_cases (x mn mx : F) :
    F.clamp x mn mx = x ∨ F.clamp x mn mx = mn ∨ F.clamp x mn mx = mx := by
  unfold F.clamp
  by_cases h1 : F.lt x mn = true
  · simp [h1]
  · simp only [Bool.not_eq_true] at h1
    by_cases h2 : F.lt mx x = true
    · simp [h1, h2]
    · simp only [Bool.not_eq_true] at h2
      simp [h1, h2]

/-- Whenever the bounds satisfy `min <= max` (as every bound pair the setters
accept does, including the infinite defaults) and the clamped value is not
NaN, the clamped value lies between the bounds. -/
theorem F.clamp_mem {x mn mx : F} (h : F.le mn mx = true)
    (hx : F.clamp x mn mx ≠ F.nan) :
    F.le mn (F.clamp x mn mx) = true ∧ F.le (F.clamp x mn mx) mx = true := by
  obtain ⟨hmn, hmx⟩ := F.ne_nan_of_le h
  unfold F.clamp at hx ⊢
  by_cases h1 : F.lt x mn = true
  · simp only [h1, if_true]
    exact ⟨F.le_self hmn, h⟩
  · simp only [Bool.not_eq_true] at h1
    by_cases h2 : F.lt mx x = true
    · simp only [h1, h2, Bool.false_eq_true, if_false, if_true]
      exact ⟨h, F.le_self hmx⟩
    · simp only [Bool.not_eq_true] at h2
      simp only [h1, h2, Bool.false_eq_true, if_false] at hx ⊢
      exact ⟨F.le_of_not_lt hx hmn h1, F.le_of_not_lt hmx hx h2⟩

/-- Clamping a finite value between finite bounds, stated over the rationals. -/
theorem F.clamp_num (v lo hi : ℚ) :
    F.clamp (F.num v) (F.num lo) (F.num hi) =
      if v < lo then F.num lo else if hi < v then F.num hi else F.num v := by
  simp [F.clamp, F.lt]

/-- With the default infinite bounds the clamp is the identity (even on NaN). -/
theorem F.clamp_neg_pos_inf (x : F) : F.clamp x F.negInf F.posInf = x := by
  cases x <;> rfl

/-! ## Claims -/

/-- C1: the spec says each `step(m)`/`update(m)` call ends by storing
`previous_error = error` and `previous_measurement = measurement`.  The code
does not: neither module ever writes `self.error` or `self.measurement`
(although their doc comments call them the values "from the previous
update"), so after `new(1, 0, 0, 1, 1, setpoint = 1)` and one call with
measurement `2` — computed error `setpoint − m = −1` — both stored fields
still hold `0` instead of `−1` and `2`, in both modules. -/
theorem C1_previous_state_never_stored :
    (Pid.step (Pid.new (F.num 1) (F.num 0) (F.num 0) (F.num 1) (F.num 1)
        (F.num 1)) (F.num 2)).1.error = F.num 0 ∧
    (Pid.step (Pid.new (F.num 1) (F.num 0) (F.num 0) (F.num 1) (F.num 1)
        (F.num 1)) (F.num 2)).1.measurement = F.num 0 ∧
    (Lib.update (Lib.new (F.num 1) (F.num 0) (F.num 0) (F.num 1) (F.num 1)
        (F.num 1)) (F.num 2)).1.error = F.num 0 ∧
    (Lib.update (Lib.new (F.num 1) (F.num 0) (F.num 0) (F.num 1) (F.num 1)
        (F.num 1)) (F.num 2)).1.measurement = F.num 0 ∧
    F.sub (F.num 1) (F.num 2) = F.num (-1) := by
  norm_num [Pid.new, Pid.step, Lib.new, Lib.update, F.sub, F.add, F.neg]

/-- C2: the claim's steady-state hypothesis speaks of the previously
*supplied* measurement, but the code never stores the supplied measurement
(see C1), so the derivative term is always computed against the
zero-initialised `measurement` field.  Run `new(0, 0, 1, 2, 2, 0)`
(so `d = −2`, `t = 1/3`), feed measurements `3` then `−1`: afterwards
`derivative_state = −2·(−1) + (1/3)·(−6) = 0` and the last supplied
measurement is `−1`.  Now mutate the setpoint and step with the same
measurement `−1` again: the claim says `derivative_state` stays `0`, but the
code produces `−2·(−1 − 0) + (1/3)·0 = 2`. -/
theorem C2_derivative_after_setpoint_change :
    ((Pid.step (Pid.step (Pid.new (F.num 0) (F.num 0) (F.num 1) (F.num 2)
        (F.num 2) (F.num 0)) (F.num 3)).1 (F.num (-1))).1.derivative
      = F.num 0) ∧
    ((Pid.step { (Pid.step (Pid.step (Pid.new (F.num 0) (F.num 0) (F.num 1)
        (F.num 2) (F.num 2) (F.num 0)) (F.num 3)).1 (F.num (-1))).1 with
          setpoint := F.num 5 } (F.num (-1))).1.derivative = F.num 2) := by
  norm_num [Pid.new, Pid.step, F.mul, F.add, F.sub, F.neg, F.div, F.clamp,
    F.lt]

/-- C3 counterexample: with the finite gains `kp = 0, ki = 0, kd = 1`,
`tau = 1`, `sampling_time = 1 > 0`, default bounds and `setpoint = 1`, a
fresh controller stepped with `measurement = setpoint = 1` returns
`−2·kd·setpoint = −2`, not `0`: the derivative term is computed against the
zero-initialised previous measurement. -/
theorem C3_output_counterexample :
    (Pid.step (Pid.new (F.num 0) (F.num 0) (F.num 1) (F.num 1) (F.num 1)
        (F.num 1)) (F.num 1)).2 ≠ F.num 0 := by
  norm_num [Pid.new, Pid.step, F.mul, F.add, F.sub, F.neg, F.div, F.clamp,
    F.lt]

/-- C3 (amended): for every finite `kp, ki, kd, tau`, `sampling_time > 0`
with `2·tau + sampling_time ≠ 0` and default bounds, a fresh controller
stepped once with `measurement = setpoint` leaves `integral_state = 0`, and
returns the first-step derivative transient `−2·kd·setpoint` (so output `0`
exactly when `kd·setpoint = 0`, e.g. `setpoint = 0` or `kd = 0`). -/
theorem C3_first_step_amended (kp ki kd tau ts sp : ℚ) (hts : 0 < ts)
    (hden : 2 * tau + ts ≠ 0) :
    (Pid.step (Pid.new (F.num kp) (F.num ki) (F.num kd) (F.num tau)
        (F.num ts) (F.num sp)) (F.num sp)).1.integral = F.num 0 ∧
    (Pid.step (Pid.new (F.num kp) (F.num ki) (F.num kd) (F.num tau)
        (F.num ts) (F.num sp)) (F.num sp)).2 = F.num (-(2 * kd * sp)) := by
  have h2 : (2 * tau + ts = 0) = False := by
    simp only [eq_iff_iff, iff_false]
    exact hden
  constructor <;>
    norm_num [Pid.new, Pid.step, F.mul, F.add, F.sub, F.neg, F.div, F.clamp,
      F.lt, h2]

/-- C3 witness: the amended claim evaluated at
`kp = ki = kd = tau = sampling_time = setpoint = 1`. -/
theorem C3_first_step_amended_witness :
    (Pid.step (Pid.new (F.num 1) (F.num 1) (F.num 1) (F.num 1)
        (F.num 1) (F.num 1)) (F.num 1)).1.integral = F.num 0 ∧
    (Pid.step (Pid.new (F.num 1) (F.num 1) (F.num 1) (F.num 1)
        (F.num 1) (F.num 1)) (F.num 1)).2 = F.num (-(2 * 1 * 1)) :=
  C3_first_step_amended 1 1 1 1 1 1 (by norm_num) (by norm_num)

/-- C4: whenever the active integral bounds satisfy `imin <= imax` (as every
pair accepted by `bound_integral` does, and as the infinite defaults do) and
the integral accumulator stored by the step is not NaN, it lies within
`[imin, imax]` immediately after the step, for every state and measurement. -/
theorem C4_integral_within_bounds (s : Pid.PID) (m : F)
    (hb : F.le s.imin s.imax = true)
    (hn : (Pid.step s m).1.integral ≠ F.nan) :
    F.le s.imin ((Pid.step s m).1.integral) = true ∧
    F.le ((Pid.step s m).1.integral) s.imax = true :=
  F.clamp_mem hb hn

/-- C4 witness: the invariant evaluated on a fresh
`new(1, 1, 1, 1, 1, setpoint = 3)` stepped with measurement `1` (stored
integral `1`, default infinite bounds). -/
theorem C4_integral_within_bounds_witness :
    F.le ((Pid.new (F.num 1) (F.num 1) (F.num 1) (F.num 1) (F.num 1)
        (F.num 3)).imin)
      ((Pid.step (Pid.new (F.num 1) (F.num 1) (F.num 1) (F.num 1) (F.num 1)
        (F.num 3)) (F.num 1)).1.integral) = true ∧
    F.le ((Pid.step (Pid.new (F.num 1) (F.num 1) (F.num 1) (F.num 1)
        (F.num 1) (F.num 3)) (F.num 1)).1.integral)
      ((Pid.new (F.num 1) (F.num 1) (F.num 1) (F.num 1) (F.num 1)
        (F.num 3)).imax) = true :=
  C4_integral_within_bounds
    (Pid.new (F.num 1) (F.num 1) (F.num 1) (F.num 1) (F.num 1) (F.num 3))
    (F.num 1) rfl
    (by norm_num [Pid.new, Pid.step, F.mul, F.add, F.sub, F.neg, F.div,
      F.clamp, F.lt]
        decide)

/-- C5: (a) whenever the active output bounds satisfy `omin <= omax` and the
returned output is not NaN, the output lies within `[omin, omax]`, for every
state and measurement; and (b) with only `bound_output(-10, 10)` set on
`new(0, 1, 0, 1/2, 2, setpoint = 100)` (integral bounds left infinite), one
step with measurement `0` drives `integral_state` to `100 > 10` while the
returned output is clamped into `[-10, 10]`. -/
theorem C5_output_within_bounds :
    (∀ (s : Pid.PID) (m : F), F.le s.omin s.omax = true →
        (Pid.step s m).2 ≠ F.nan →
        F.le s.omin ((Pid.step s m).2) = true ∧
        F.le ((Pid.step s m).2) s.omax = true) ∧
    (∃ s1 : Pid.PID,
        Pid.bound_output (Pid.new (F.num 0) (F.num 1) (F.num 0)
          (F.num (1/2)) (F.num 2) (F.num 100)) (F.num (-10)) (F.num 10)
          = some s1 ∧
        F.lt (F.num 10) ((Pid.step s1 (F.num 0)).1.integral) = true ∧
        F.le (F.num (-10)) ((Pid.step s1 (F.num 0)).2) = true ∧
        F.le ((Pid.step s1 (F.num 0)).2) (F.num 10) = true) := by
  constructor
  · intro s m hb hn
    exact F.clamp_mem hb hn
  · refine ⟨{ Pid.new (F.num 0) (F.num 1) (F.num 0) (F.num (1/2)) (F.num 2)
        (F.num 100) with omin := F.num (-10), omax := F.num 10 },
      ?_, ?_, ?_, ?_⟩ <;>
      norm_num [Pid.new, Pid.step, Pid.bound_output, F.mul, F.add, F.sub,
        F.neg, F.div, F.clamp, F.lt, F.le]

/-- C5 witness: part (a) evaluated on a fresh `new(1, 1, 1, 1, 1, 3)` with
default infinite output bounds, stepped with measurement `0`. -/
theorem C5_output_within_bounds_witness :
    F.le ((Pid.new (F.num 1) (F.num 1) (F.num 1) (F.num 1) (F.num 1)
        (F.num 3)).omin)
      ((Pid.step (Pid.new (F.num 1) (F.num 1) (F.num 1) (F.num 1) (F.num 1)
        (F.num 3)) (F.num 0)).2) = true ∧
    F.le ((Pid.step (Pid.new (F.num 1) (F.num 1) (F.num 1) (F.num 1)
        (F.num 1) (F.num 3)) (F.num 0)).2)
      ((Pid.new (F.num 1) (F.num 1) (F.num 1) (F.num 1) (F.num 1)
        (F.num 3)).omax) = true :=
  C5_output_within_bounds.1
    (Pid.new (F.num 1) (F.num 1) (F.num 1) (F.num 1) (F.num 1) (F.num 3))
    (F.num 0) rfl
    (by norm_num [Pid.new, Pid.step, F.mul, F.add, F.sub, F.neg, F.div,
      F.clamp, F.lt]
        decide)

/-- C6: construction with finite arguments (and the documented precondition
`2·tau + sampling_time ≠ 0` making the filter coefficient well defined)
stores exactly the derived gains `gain_p = kp`, `gain_i = ½·ki·Ts`,
`gain_d = −2·kd`, `filter_coeff = (2τ−Ts)/(2τ+Ts)`, zero-initialises the
four recurrence-state fields, and sets both bound pairs to `(−∞, +∞)` — in
both modules. -/
theorem C6_construction (kp ki kd tau ts sp : ℚ) (hden : 2 * tau + ts ≠ 0) :
    Pid.new (F.num kp) (F.num ki) (F.num kd) (F.num tau) (F.num ts)
        (F.num sp) =
      { setpoint := F.num sp, error := F.num 0, integral := F.num 0,
        derivative := F.num 0, measurement := F.num 0,
        p := F.num kp, i := F.num (1/2 * ki * ts), d := F.num (-(2 * kd)),
        t := F.num ((2 * tau - ts) / (2 * tau + ts)),
        imin := F.negInf, imax := F.posInf,
        omin := F.negInf, omax := F.posInf } ∧
    Lib.new (F.num kp) (F.num ki) (F.num kd) (F.num tau) (F.num ts)
        (F.num sp) =
      { setpoint := F.num sp, error := F.num 0, integral := F.num 0,
        derivative := F.num 0, measurement := F.num 0,
        kp := F.num kp, ki := F.num (1/2 * ki * ts), kd := F.num (-(2 * kd)),
        tc := F.num ((2 * tau - ts) / (2 * tau + ts)),
        imin := F.negInf, imax := F.posInf,
        omin := F.negInf, omax := F.posInf } := by
  have h2 : (2 * tau + ts = 0) = False := by
    simp only [eq_iff_iff, iff_false]
    exact hden
  constructor
  · norm_num [Pid.new, F.mul, F.add, F.sub, F.neg, F.div, h2,
      Pid.PID.mk.injEq]
    ring
  · norm_num [Lib.new, F.mul, F.add, F.sub, F.neg, F.div, h2,
      Lib.PID.mk.injEq]
    exact ⟨by ring, by ring, by ring⟩

/-- C6 witness: the construction equations evaluated at
`kp = ki = kd = tau = sampling_time = setpoint = 1`. -/
theorem C6_construction_witness :
    Pid.new (F.num 1) (F.num 1) (F.num 1) (F.num 1) (F.num 1) (F.num 1) =
      { setpoint := F.num 1, error := F.num 0, integral := F.num 0,
        derivative := F.num 0, measurement := F.num 0,
        p := F.num 1, i := F.num (1/2 * 1 * 1), d := F.num (-(2 * 1)),
        t := F.num ((2 * 1 - 1) / (2 * 1 + 1)),
        imin := F.negInf, imax := F.posInf,
        omin := F.negInf, omax := F.posInf } ∧
    Lib.new (F.num 1) (F.num 1) (F.num 1) (F.num 1) (F.num 1) (F.num 1) =
      { setpoint := F.num 1, error := F.num 0, integral := F.num 0,
        derivative := F.num 0, measurement := F.num 0,
        kp := F.num 1, ki := F.num (1/2 * 1 * 1), kd := F.num (-(2 * 1)),
        tc := F.num ((2 * 1 - 1) / (2 * 1 + 1)),
        imin := F.negInf, imax := F.posInf,
        omin := F.negInf, omax := F.posInf } :=
  C6_construction 1 1 1 1 1 1 (by norm_num)

/-- C7: for every controller state and every bound pair, if `min > max` both
setters hit the `assert!(min <= max)` and panic (modelled as `none`), so no
bound field is mutated; if `min <= max` each setter succeeds and overwrites
exactly its own bound pair with the given values. -/
theorem C7_bound_setters (s : Pid.PID) (mn mx : F) :
    (F.lt mx mn = true →
        Pid.bound_integral s mn mx = none ∧
        Pid.bound_output s mn mx = none) ∧
    (F.le mn mx = true →
        Pid.bound_integral s mn mx
          = some { s with imin := mn, imax := mx } ∧
        Pid.bound_output s mn mx
          = some { s with omin := mn, omax := mx }) := by
  constructor
  · intro h
    have hle : F.le mn mx = false := F.not_le_of_lt h
    simp [Pid.bound_integral, Pid.bound_output, hle]
  · intro h
    simp [Pid.bound_integral, Pid.bound_output, h]

/-- C7 witness: `bound_integral(5, 1)` and `bound_output(5, 1)` panic
without mutating the fresh controller, while `bound_integral(1, 5)` and
`bound_output(1, 5)` overwrite exactly their own bound pair. -/
theorem C7_bound_setters_witness :
    (Pid.bound_integral (Pid.new (F.num 1) (F.num 1) (F.num 1) (F.num 1)
        (F.num 1) (F.num 0)) (F.num 5) (F.num 1) = none ∧
     Pid.bound_output (Pid.new (F.num 1) (F.num 1) (F.num 1) (F.num 1)
        (F.num 1) (F.num 0)) (F.num 5) (F.num 1) = none) ∧
    (Pid.bound_integral (Pid.new (F.num 1) (F.num 1) (F.num 1) (F.num 1)
        (F.num 1) (F.num 0)) (F.num 1) (F.num 5)
       = some { Pid.new (F.num 1) (F.num 1) (F.num 1) (F.num 1) (F.num 1)
          (F.num 0) with imin := F.num 1, imax := F.num 5 } ∧
     Pid.bound_output (Pid.new (F.num 1) (F.num 1) (F.num 1) (F.num 1)
        (F.num 1) (F.num 0)) (F.num 1) (F.num 5)
       = some { Pid.new (F.num 1) (F.num 1) (F.num 1) (F.num 1) (F.num 1)
          (F.num 0) with omin := F.num 1, omax := F.num 5 }) :=
  ⟨(C7_bound_setters (Pid.new (F.num 1) (F.num 1) (F.num 1) (F.num 1)
      (F.num 1) (F.num 0)) (F.num 5) (F.num 1)).1 (by decide),
   (C7_bound_setters (Pid.new (F.num 1) (F.num 1) (F.num 1) (F.num 1)
      (F.num 1) (F.num 0)) (F.num 1) (F.num 5)).2 (by decide)⟩

/-- C8: anti-windup with integral bounds `[−1, 1]` and positive integral
gain `g`, for any state whose stored previous-error field is `0` (as it is
in every reachable state, since the code never writes it) and stored
integral `c`: (i) whenever the unclamped accumulation `g·e + c` reaches the
bound (in particular while a large positive error persists after
saturation), the stored integral is pinned at exactly `1`; (ii) the stored
integral never exceeds `1`; (iii) from the saturated state `c = 1`, the
first step with a negative error `e < 0` strictly decreases the stored
integral below `1`. -/
theorem C8_antiwindup (s : Pid.PID) (m : F) (g e c : ℚ)
    (hmin : s.imin = F.num (-1)) (hmax : s.imax = F.num 1)
    (hi : s.i = F.num g) (hg : 0 < g)
    (hperr : s.error = F.num 0) (hint : s.integral = F.num c)
    (herr : F.sub s.setpoint m = F.num e) :
    (1 ≤ g * e + c → (Pid.step s m).1.integral = F.num 1) ∧
    F.le ((Pid.step s m).1.integral) (F.num 1) = true ∧
    (c = 1 → e < 0 → F.lt ((Pid.step s m).1.integral) (F.num 1) = true) := by
  have h0 : (Pid.step s m).1.integral
      = F.clamp (F.add (F.mul s.i (F.add (F.sub s.setpoint m) s.error))
          s.integral) s.imin s.imax := rfl
  have hraw : (Pid.step s m).1.integral
      = F.clamp (F.num (g * e + c)) (F.num (-1)) (F.num 1) := by
    rw [h0, hi, hperr, hint, herr, hmin, hmax]
    norm_num [F.mul, F.add]
  rw [hraw, F.clamp_num]
  refine ⟨?_, ?_, ?_⟩
  · intro h1
    rcases eq_or_lt_of_le h1 with heq | hlt
    · rw [if_neg (by linarith), if_neg (by linarith)]
      exact congrArg F.num heq.symm
    · rw [if_neg (by linarith), if_pos hlt]
  · split_ifs with h1 h2
    · decide
    · decide
    · simp only [F.le, decide_eq_true_eq]
      linarith
  · intro hc he
    subst hc
    split_ifs with h1 h2
    · decide
    · exfalso; nlinarith
    · simp only [F.lt, decide_eq_true_eq]
      nlinarith

/-- C8 witness: the anti-windup behaviour evaluated on a saturated
controller (`integral = 1`, bounds `[−1, 1]`, integral gain `1`) stepped
with measurement `1` against setpoint `0`, i.e. error `−1 < 0`. -/
theorem C8_antiwindup_witness :
    ((1 : ℚ) ≤ 1 * (-1) + 1 →
      (Pid.step
        { setpoint := F.num 0, error := F.num 0, integral := F.num 1,
          derivative := F.num 0, measurement := F.num 0, p := F.num 0,
          i := F.num 1, d := F.num 0, t := F.num 0, imin := F.num (-1),
          imax := F.num 1, omin := F.negInf, omax := F.posInf }
        (F.num 1)).1.integral = F.num 1) ∧
    F.le
      ((Pid.step
        { setpoint := F.num 0, error := F.num 0, integral := F.num 1,
          derivative := F.num 0, measurement := F.num 0, p := F.num 0,
          i := F.num 1, d := F.num 0, t := F.num 0, imin := F.num (-1),
          imax := F.num 1, omin := F.negInf, omax := F.posInf }
        (F.num 1)).1.integral) (F.num 1) = true ∧
    ((1 : ℚ) = 1 → (-1 : ℚ) < 0 →
      F.lt
        ((Pid.step
          { setpoint := F.num 0, error := F.num 0, integral := F.num 1,
            derivative := F.num 0, measurement := F.num 0, p := F.num 0,
            i := F.num 1, d := F.num 0, t := F.num 0, imin := F.num (-1),
            imax := F.num 1, omin := F.negInf, omax := F.posInf }
          (F.num 1)).1.integral) (F.num 1) = true) :=
  C8_antiwindup _ (F.num 1) 1 (-1) 1 rfl rfl rfl (by norm_num) rfl rfl
    (by norm_num [F.sub, F.add, F.neg])

/-- One step preserves agreement of all fields other than the output
bounds: the state update never reads `omin`/`omax`. -/
theorem Pid.step_preserves_sameExceptOutputBounds {s1 s2 : Pid.PID} (m : F)
    (h : Pid.sameExceptOutputBounds s1 s2) :
    Pid.sameExceptOutputBounds (Pid.step s1 m).1 (Pid.step s2 m).1 := by
  unfold Pid.sameExceptOutputBounds at h ⊢
  obtain ⟨h1, h2, h3, h4, h5, h6, h7, h8, h9, h10, h11⟩ := h
  refine ⟨?_, ?_, ?_, ?_, ?_, ?_, ?_, ?_, ?_, ?_, ?_⟩ <;>
    simp only [Pid.step, h1, h2, h3, h4, h5, h6, h7, h8, h9, h10, h11]

/-- C10: output bounds never influence state evolution.  Two controllers
identical except for `omin`/`omax`, driven by any identical sequence of
setpoint writes and step calls, stay identical on every field other than
the output bounds (in particular on the four recurrence-state fields): the
output clamp affects only each step's returned value, which is never fed
back into stored state. -/
theorem C10_output_bounds_independent (evs : List Ev) :
    ∀ s1 s2 : Pid.PID, Pid.sameExceptOutputBounds s1 s2 →
      (∀ e ∈ evs, Ev.isStateEvent e = true) →
      ∃ r1 r2 : Pid.PID × List F,
        Pid.run s1 evs = some r1 ∧ Pid.run s2 evs = some r2 ∧
        Pid.sameExceptOutputBounds r1.1 r2.1 := by
  induction evs with
  | nil =>
    intro s1 s2 h _
    exact ⟨(s1, []), (s2, []), rfl, rfl, h⟩
  | cons e evs ih =>
    intro s1 s2 h hevs
    have hevs' : ∀ x ∈ evs, Ev.isStateEvent x = true :=
      fun x hx => hevs x (List.mem_cons_of_mem _ hx)
    cases e with
    | setSp v =>
      have h' : Pid.sameExceptOutputBounds { s1 with setpoint := v }
          { s2 with setpoint := v } := by
        unfold Pid.sameExceptOutputBounds at h ⊢
        obtain ⟨_, h2, h3, h4, h5, h6, h7, h8, h9, h10, h11⟩ := h
        exact ⟨rfl, h2, h3, h4, h5, h6, h7, h8, h9, h10, h11⟩
      obtain ⟨r1, r2, hr1, hr2, hr⟩ := ih _ _ h' hevs'
      refine ⟨r1, r2, ?_, ?_, hr⟩ <;> simp only [Pid.run] <;> assumption
    | boundI mn mx =>
      have hfalse := hevs _ (List.mem_cons_self _ _)
      simp [Ev.isStateEvent] at hfalse
    | boundO mn mx =>
      have hfalse := hevs _ (List.mem_cons_self _ _)
      simp [Ev.isStateEvent] at hfalse
    | meas m =>
      have h' := Pid.step_preserves_sameExceptOutputBounds m h
      obtain ⟨⟨sf1, os1⟩, ⟨sf2, os2⟩, hr1, hr2, hr⟩ := ih _ _ h' hevs'
      refine ⟨(sf1, (Pid.step s1 m).2 :: os1),
        (sf2, (Pid.step s2 m).2 :: os2), ?_, ?_, hr⟩ <;>
        simp only [Pid.run, hr1, hr2]

/-- C10 witness: a fresh controller and its copy with output bounds
`[−10, 10]`, driven by a setpoint change to `5` followed by a step with
measurement `1`, reach states agreeing on everything but the output
bounds. -/
theorem C10_output_bounds_independent_witness :
    ∃ r1 r2 : Pid.PID × List F,
      Pid.run (Pid.new (F.num 1) (F.num 1) (F.num 1) (F.num 1) (F.num 1)
          (F.num 0)) [Ev.setSp (F.num 5), Ev.meas (F.num 1)] = some r1 ∧
      Pid.run { Pid.new (F.num 1) (F.num 1) (F.num 1) (F.num 1) (F.num 1)
          (F.num 0) with omin := F.num (-10), omax := F.num 10 }
          [Ev.setSp (F.num 5), Ev.meas (F.num 1)] = some r2 ∧
      Pid.sameExceptOutputBounds r1.1 r2.1 :=
  C10_output_bounds_independent [Ev.setSp (F.num 5), Ev.meas (F.num 1)]
    (Pid.new (F.num 1) (F.num 1) (F.num 1) (F.num 1) (F.num 1) (F.num 0))
    { Pid.new (F.num 1) (F.num 1) (F.num 1) (F.num 1) (F.num 1)
        (F.num 0) with omin := F.num (-10), omax := F.num 10 }
    (by unfold Pid.sameExceptOutputBounds
        exact ⟨rfl, rfl, rfl, rfl, rfl, rfl, rfl, rfl, rfl, rfl, rfl⟩)
    (by decide)
